import Mathlib

/-!
Verification development for the `mcp-secret-wrapper` repository.

The repository is a CLI wrapper that fetches secrets from a cloud vault and
injects them as environment variables into a child process.  The core under
verification is:

* the CLI token parser (`parseCliArgs` in `src/example/mcp-server.ts`),
* the secret-reference splitter and the sequential resolution pipeline
  (`getSecrets` in `src/example/mcp-server.ts`),
* the JSON path extractor (`extractJsonPath` / `validateJsonPath` in
  `src/example/mcp-server.ts`),
* the GCP identifier normalizer with its resolved-project-id context
  (`GCPVaultPlugin.initialize` / `GCPVaultPlugin.getSecret`).

JavaScript strings are modelled through their character lists (`String.data`);
the JS string operations used by the source (`lastIndexOf`, `split`,
`startsWith`, `includes`, `indexOf`, `substring`) are given executable
list-based models below.  External effects (the vault SDK fetch, `JSON.parse`,
file reads, the `gcloud` subprocess) are passed in as explicit function
parameters, mirroring the spec treating them as opaque collaborators.
-/

namespace McpSecretWrapper

/-! ## JavaScript string primitives, modelled on character lists -/

/-- JS `s.lastIndexOf(c)` for a single character: index of the last
occurrence, `none` when absent (JS returns `-1`). -/
def jsLastIndexOf (c : Char) : List Char → Option Nat
  | [] => none
  | x :: rest =>
    match jsLastIndexOf c rest with
    | some i => some (i + 1)
    | none => if x = c then some 0 else none

/-- JS `s.split(c)` for a single-character separator, auxiliary
right-to-left accumulator: returns (current segment, later segments). -/
def jsSplitAux (c : Char) : List Char → List Char × List (List Char)
  | [] => ([], [])
  | x :: rest =>
    let r := jsSplitAux c rest
    if x = c then ([], r.1 :: r.2) else (x :: r.1, r.2)

/-- JS `s.split(c)` for a single-character separator on character lists.
Always returns a non-empty list; `"".split(c)` is `[""]`, as in JS. -/
def jsSplitChars (c : Char) (xs : List Char) : List (List Char) :=
  (jsSplitAux c xs).1 :: (jsSplitAux c xs).2

/-- JS `s.split(c)` on strings. -/
def jsSplit (c : Char) (s : String) : List String :=
  (jsSplitChars c s.data).map String.mk

/-- JS `s.startsWith(p)`. -/
def jsStartsWith (s p : String) : Bool :=
  p.data.isPrefixOf s.data

/-- JS `s.endsWith(p)`. -/
def jsEndsWith (s p : String) : Bool :=
  p.data.isSuffixOf s.data

/-- JS `s.includes(sub)`. -/
def jsIncludes (s sub : String) : Bool :=
  decide (sub.data <:+: s.data)

/-- JS `array.indexOf(a)`: index of first occurrence, `none` for `-1`. -/
def jsIndexOf (a : String) : List String → Option Nat
  | [] => none
  | x :: rest => if x = a then some 0 else (jsIndexOf a rest).map (· + 1)

/-! ## Secret reference splitter

From `getSecrets` (`src/example/mcp-server.ts`, lines 377-397):

```
const lastHashIndex = secretIdWithPath.lastIndexOf("#");
const actualSecretId = lastHashIndex === -1 ? secretIdWithPath
  : secretIdWithPath.substring(0, lastHashIndex);
const jsonPath = lastHashIndex === -1 ? undefined
  : secretIdWithPath.substring(lastHashIndex + 1);
```
-/

/-- Split a caller-supplied token on the LAST `#` into
(actual secret id, optional JSON path). -/
def splitSecretRef (tok : String) : String × Option String :=
  match jsLastIndexOf '#' tok.data with
  | none => (tok, none)
  | some i => (String.mk (tok.data.take i), some (String.mk (tok.data.drop (i + 1))))

/-! ## Lemmas about the splitter -/

theorem jsLastIndexOf_eq_none {c : Char} {ys : List Char} (h : c ∉ ys) :
    jsLastIndexOf c ys = none := by
  induction ys with
  | nil => rfl
  | cons y rest ih =>
    simp only [List.mem_cons, not_or] at h
    simp [jsLastIndexOf, ih h.2]
    exact fun hy => h.1 hy.symm

theorem jsLastIndexOf_append_cons {c : Char} (xs : List Char) {ys : List Char}
    (h : c ∉ ys) : jsLastIndexOf c (xs ++ c :: ys) = some xs.length := by
  induction xs with
  | nil => simp [jsLastIndexOf, jsLastIndexOf_eq_none h]
  | cons x rest ih => simp [jsLastIndexOf, ih]

/-! ## JSON values

JSON documents as produced by `JSON.parse`.  JSON numbers are doubles in
JavaScript; the claims under verification only exercise integral numbers, so
numbers are modelled as integers (with `String(n)` their decimal rendering).
`JSON.parse` itself is an external runtime primitive; the extractor is
parameterised by a parse function `String → Option Json`, `none` standing for
a `SyntaxError` (the only exception `JSON.parse` throws). -/

inductive Json where
  | null : Json
  | bool (b : Bool) : Json
  | num (n : Int) : Json
  | str (s : String) : Json
  | arr (elems : List Json) : Json
  | obj (fields : List (String × Json)) : Json

/-- Typed diagnostics of the JSON path extractor, carrying the context the
source interpolates into each message. -/
inductive ExtractError where
  | emptyPath : ExtractError
  | dotEdges (path : String) : ExtractError
  | emptySegments (path : String) : ExtractError
  | notJson (path : String) : ExtractError
  | rootNotObject (path : String) (kind : String) : ExtractError
  | notPlainObject (path : String) (key : String) (parent : Option String)
      (kind : String) : ExtractError
  | keyNotFound (path : String) (key : String) (parent : Option String)
      (available : String) : ExtractError
  | nullValue (path : String) : ExtractError
  | arrayValue (path : String) : ExtractError
  | objectValue (path : String) : ExtractError
deriving DecidableEq, Repr

/-! ## JSON path validation

From `validateJsonPath` (`src/example/mcp-server.ts`, lines 241-259). -/

def validateJsonPath (jsonPath : String) : Except ExtractError Unit :=
  if jsonPath.data.length = 0 then .error .emptyPath
  else if jsStartsWith jsonPath "." || jsEndsWith jsonPath "." then
    .error (.dotEdges jsonPath)
  else if ((jsSplit '.' jsonPath).filter (fun seg => seg.data.length = 0)).length > 0 then
    .error (.emptySegments jsonPath)
  else .ok ()

/-! ## JSON path extraction

From `extractJsonPath` (`src/example/mcp-server.ts`, lines 268-363). -/

/-- Kind description used in the root-shape error (step 2 of the source);
`typeof` of a JSON primitive is `boolean`, `number` or `string`. -/
def rootKindDesc : Json → String
  | .arr _ => "a JSON array"
  | .null => "null"
  | .bool _ => "a JSON primitive (boolean)"
  | .num _ => "a JSON primitive (number)"
  | .str _ => "a JSON primitive (string)"
  | .obj _ => "a JSON object"

/-- Kind description used in the traversal error (step 3 of the source). -/
def valueKindDesc : Json → String
  | .arr _ => "an array"
  | .null => "null"
  | .bool _ => "a boolean"
  | .num _ => "a number"
  | .str _ => "a string"
  | .obj _ => "an object"

/-- JS property access `value[key]` guarded by `key in value`. -/
def lookupField (k : String) : List (String × Json) → Option Json
  | [] => none
  | (k2, v) :: rest => if k2 = k then some v else lookupField k rest

/-- `Object.keys(value)` joined as the source interpolates it:
comma-separated, or `(none)` when empty. -/
def availableKeysDesc (fields : List (String × Json)) : String :=
  let availableKeys := fields.map Prod.fst
  if availableKeys.length > 0 then String.intercalate ", " availableKeys
  else "(none)"

/-- `pathSegments.join(".")` when non-empty, else JS `null`. -/
def parentPathOf (segs : List String) : Option String :=
  if segs.length > 0 then some (String.intercalate "." segs) else none

/-- Step 3 of the source: walk the dot-path keys, requiring a plain object
at every step, accumulating the traversed segments for diagnostics. -/
def traverseJsonPath (jsonPath : String) :
    List String → List String → Json → Except ExtractError Json
  | [], _, v => .ok v
  | k :: rest, segs, v =>
    match v with
    | .obj fields =>
      match lookupField k fields with
      | some v2 => traverseJsonPath jsonPath rest (segs ++ [k]) v2
      | none => .error (.keyNotFound jsonPath k (parentPathOf segs)
          (availableKeysDesc fields))
    | other => .error (.notPlainObject jsonPath k (parentPathOf segs)
        (valueKindDesc other))

/-- Step 4 of the source: convert the terminal value to a string.
`String(n)` and `String(b)` are the JS decimal / `true`-`false` renderings. -/
def convertTerminal (jsonPath : String) : Json → Except ExtractError String
  | .str s => .ok s
  | .num n => .ok (toString n)
  | .bool b => .ok (if b then "true" else "false")
  | .null => .error (.nullValue jsonPath)
  | .arr _ => .error (.arrayValue jsonPath)
  | .obj _ => .error (.objectValue jsonPath)

/-- `extractJsonPath(jsonString, jsonPath)`, with `JSON.parse` passed in as
`parse`.  Mirrors the four steps of the source: validate the path, parse,
check the root is a plain object, traverse, convert the terminal value. -/
def extractJsonPath (parse : String → Option Json) (jsonString jsonPath : String) :
    Except ExtractError String :=
  match validateJsonPath jsonPath with
  | .error e => .error e
  | .ok _ =>
    match parse jsonString with
    | none => .error (.notJson jsonPath)
    | some parsed =>
      match parsed with
      | .obj fields =>
        match traverseJsonPath jsonPath (jsSplit '.' jsonPath) [] (.obj fields) with
        | .error e => .error e
        | .ok v => convertTerminal jsonPath v
      | _ => .error (.rootNotObject jsonPath (rootKindDesc parsed))

/-- The rendered message of each diagnostic, as interpolated by the source
(the single-quote characters the source places around interpolated values
are omitted). -/
def renderExtractError : ExtractError → String
  | .emptyPath => "JSON path cannot be empty"
  | .dotEdges p =>
      "JSON path " ++ p ++ " cannot start or end with a dot. Use format like key.subkey"
  | .emptySegments p =>
      "JSON path " ++ p ++
      " contains empty segments. Use format like key.subkey without consecutive dots"
  | .notJson p =>
      "Cannot extract JSON path " ++ p ++
      " from secret: secret value is not valid JSON. " ++
      "If you did not intend to extract a JSON path, remove the #" ++ p ++
      " suffix from the secret ID."
  | .rootNotObject p kind =>
      "Cannot extract JSON path " ++ p ++ " from secret: secret value is " ++ kind ++
      ", not a JSON object. JSON path extraction requires a JSON object with key-value pairs."
  | .notPlainObject p key parent kind =>
      "Cannot extract JSON path " ++ p ++ " from secret: value at " ++
      (match parent with | some pp => "path " ++ pp | none => "top-level") ++
      " is " ++ kind ++ ", not a plain object. Cannot access property " ++ key ++
      " on " ++ kind ++ ". JSON path extraction requires plain objects with key-value pairs."
  | .keyNotFound p key parent available =>
      "Cannot extract JSON path " ++ p ++ " from secret: key " ++ key ++
      " not found at " ++
      (match parent with | some pp => "path " ++ pp | none => "top-level") ++
      ". Available keys: " ++ available
  | .nullValue p =>
      "Cannot extract JSON path " ++ p ++ " from secret: value at path " ++ p ++
      " is null. Only non-null primitive values (string, number, boolean) can be extracted."
  | .arrayValue p =>
      "Cannot extract JSON path " ++ p ++ " from secret: value at path " ++ p ++
      " is an array. Only primitive values (string, number, boolean) can be extracted, not arrays or objects."
  | .objectValue p =>
      "Cannot extract JSON path " ++ p ++ " from secret: value at path " ++ p ++
      " is an object. Only primitive values (string, number, boolean) can be extracted, not objects or arrays."

/-! ## Secret resolution pipeline

From `getSecrets` (`src/example/mcp-server.ts`, lines 371-413).  The vault is
the external collaborator `vault.getSecret`, passed in as `fetch`; alongside
the result, the model returns the trace of secret ids actually fetched, so
that fail-fast behaviour ("the second is never fetched") is observable. -/

inductive PipelineError where
  | emptyJsonPath (key : String) (token : String) : PipelineError
  | vaultError (msg : String) : PipelineError
  | extractError (e : ExtractError) : PipelineError
deriving DecidableEq, Repr

/-- The body of the `getSecrets` loop for one entry `key = token`:
split the token on the last `#`, reject an empty JSON path, fetch the
secret, then extract if a path was given.  Second component: ids fetched. -/
def resolveEntry (parse : String → Option Json) (fetch : String → Except String String)
    (key token : String) : Except PipelineError String × List String :=
  let actualSecretId := (splitSecretRef token).1
  match (splitSecretRef token).2 with
  | some p =>
    if p.data.length = 0 then (.error (.emptyJsonPath key token), [])
    else
      match fetch actualSecretId with
      | .error e => (.error (.vaultError e), [actualSecretId])
      | .ok secretValue =>
        match extractJsonPath parse secretValue p with
        | .error e => (.error (.extractError e), [actualSecretId])
        | .ok v => (.ok v, [actualSecretId])
  | none =>
    match fetch actualSecretId with
    | .error e => (.error (.vaultError e), [actualSecretId])
    | .ok secretValue => (.ok secretValue, [actualSecretId])

/-- `getSecrets`: sequential loop over `Object.entries(envVars)` in insertion
order, fail-fast on the first error; returns the result mapping (or first
error) together with the trace of fetched secret ids. -/
def getSecretsT (parse : String → Option Json) (fetch : String → Except String String) :
    List (String × String) → Except PipelineError (List (String × String)) × List String
  | [] => (.ok [], [])
  | (key, token) :: rest =>
    match resolveEntry parse fetch key token with
    | (.error e, tr) => (.error e, tr)
    | (.ok v, tr) =>
      match getSecretsT parse fetch rest with
      | (.error e, tr2) => (.error e, tr ++ tr2)
      | (.ok m, tr2) => (.ok ((key, v) :: m), tr ++ tr2)

/-! ## CLI argument parsing

From `parseCliArgs` (`src/example/mcp-server.ts`, lines 184-207). -/

/-- JS `envVars[key] = value` on a record kept as an insertion-ordered
association list: overwrite in place, else append. -/
def recordSet (key value : String) : List (String × String) → List (String × String)
  | [] => [(key, value)]
  | (k, v) :: rest =>
    if k = key then (k, value) :: rest else (k, v) :: recordSet key value rest

/-- The `for (const arg of envVarArgs)` loop: each token must contain `=`;
`arg.split("=", 2)` keeps the first two segments of the full split, so the
key is the text before the first `=` and the stored value the text between
the first and second `=`.  (A token contains `=` exactly when its split has
at least two segments, so the fallback arm is the missing-`=` error.) -/
def parseEnvVarArgs : List String → List (String × String) →
    Except String (List (String × String))
  | [], envVars => .ok envVars
  | arg :: rest, envVars =>
    match jsSplit '=' arg with
    | key :: value :: _ => parseEnvVarArgs rest (recordSet key value envVars)
    | _ => .error ("Invalid format: " ++ arg ++ ". Use key=value.")

/-- `parseCliArgs(args)`: split on the first `--`; tokens before it are
`KEY=VALUE` env-var bindings, tokens after it the command. -/
def parseCliArgs (args : List String) :
    Except String (List (String × String) × List String) :=
  match jsIndexOf "--" args with
  | some delimiterIndex =>
    match parseEnvVarArgs (args.take delimiterIndex) [] with
    | .error e => .error e
    | .ok envVars => .ok (envVars, args.drop (delimiterIndex + 1))
  | none => .ok ([], args)

/-! ## GCP vault plugin

From `GCPVaultPlugin` (`src/unnamed/part_006`).  The Secret Manager SDK
client, the filesystem and the `gcloud` subprocess are external
collaborators; `initialize` is modelled as the computation of the
`resolvedProjectId` session context over an explicit environment, and
`getSecret` as normalization followed by an abstract fetch.  JS truthiness
of the optional strings involved (`undefined` and `""` are falsy) is modelled
by `jsTruthy`. -/

def jsTruthy : Option String → Bool
  | none => false
  | some s => !s.data.isEmpty

inductive GcpError where
  | shorthandNeedsProjectId : GcpError
  | invalidFormat (secretId : String) : GcpError
deriving DecidableEq, Repr

/-- The message of each normalization error, as in the source (the
single-quote characters are omitted). -/
def renderGcpError : GcpError → String
  | .shorthandNeedsProjectId =>
      "Cannot use shorthand secret ID format without projectId. " ++
      "Use full format: projects/PROJECT_ID/secrets/SECRET_NAME/versions/VERSION " ++
      "or set projectId via --vault-projectId, VAULT_PROJECTID, keyFilename, " ++
      "credentials, or gcloud config."
  | .invalidFormat sid =>
      "Invalid secret ID format: " ++ sid ++
      ". Use format: projects/PROJECT_ID/secrets/SECRET_NAME/versions/VERSION " ++
      "or PROJECT_ID/SECRET_NAME"

/-- The shorthand arm of `getSecret` (`src/unnamed/part_006`, lines 176-196),
given the truthy resolved project id `proj`. -/
def gcpNormalizeShorthand (proj secretId : String) : Except GcpError String :=
  match jsSplit '/' secretId with
  | [s0] =>
    .ok ("projects/" ++ proj ++ "/secrets/" ++ s0 ++ "/versions/latest")
  | [a, b] =>
    if a = proj then .ok ("projects/" ++ a ++ "/secrets/" ++ b ++ "/versions/latest")
    else .ok ("projects/" ++ proj ++ "/secrets/" ++ a ++ "/versions/" ++ b)
  | [a, b, c] =>
    .ok ("projects/" ++ a ++ "/secrets/" ++ b ++ "/versions/" ++ c)
  | _ => .error (.invalidFormat secretId)

/-- The normalization performed by `getSecret` (`src/unnamed/part_006`,
lines 150-197), including its mutation of `this.resolvedProjectId`: the
result is (normalized id or error, resolved project id after the call). -/
def gcpNormalize (resolvedProjectId : Option String) (secretId : String) :
    Except GcpError String × Option String :=
  if jsStartsWith secretId "projects/" then
    let resolved2 :=
      match jsSplit '/' secretId with
      | p0 :: p1 :: _ =>
        if p0 = "projects" ∧ jsTruthy resolvedProjectId = false then some p1
        else resolvedProjectId
      | _ => resolvedProjectId
    if jsIncludes secretId "/versions/" then (.ok secretId, resolved2)
    else (.ok (secretId ++ "/versions/latest"), resolved2)
  else
    if jsTruthy resolvedProjectId then
      match resolvedProjectId with
      | some proj => (gcpNormalizeShorthand proj secretId, some proj)
      | none => (.error .shorthandNeedsProjectId, none)
    else (.error .shorthandNeedsProjectId, resolvedProjectId)

inductive GcpSecretError where
  | format (e : GcpError) : GcpSecretError
  | vault (msg : String) : GcpSecretError
deriving DecidableEq, Repr

/-- `getSecret` with the SDK call abstracted as `fetch`: normalize, then
`accessSecretVersion` on the normalized id.  Result, state after the call,
and trace of ids fetched.  (The source additionally rewraps certain SDK
error messages; that enrichment of opaque vault errors is external to the
claims and left as passthrough.) -/
def gcpGetSecret (fetch : String → Except String String) (resolvedProjectId : Option String)
    (secretId : String) : Except GcpSecretError String × Option String × List String :=
  match gcpNormalize resolvedProjectId secretId with
  | (.error e, st2) => (.error (.format e), st2, [])
  | (.ok normalizedSecretId, st2) =>
    match fetch normalizedSecretId with
    | .error msg => (.error (.vault msg), st2, [normalizedSecretId])
    | .ok v => (.ok v, st2, [normalizedSecretId])

/-! ## GCP vault initialization

From `GCPVaultPlugin.initialize` (`src/unnamed/part_006`, lines 47-141).
The external world is an explicit environment: the
`GOOGLE_APPLICATION_CREDENTIALS` variable, reading and JSON-parsing a
service-account key file (yielding its optional `project_id` field, or an
error when the read or parse throws), and the trimmed output of
`gcloud config get-value project` (an error when the command fails).
The SDK client construction itself is external and not modelled; the result
is the `resolvedProjectId` session context after initialization. -/

structure GCPCredentials where
  client_email : String
  private_key : String
  project_id : String
deriving DecidableEq, Repr

structure GCPVaultConfig where
  projectId : Option String := none
  keyFilename : Option String := none
  credentials : Option GCPCredentials := none
deriving DecidableEq, Repr

structure GcpInitEnv where
  googleApplicationCredentials : Option String
  readKeyProjectId : String → Except String (Option String)
  gcloudProject : Except String String

/-- The `resolvedProjectId` computed by `initialize`, or the error thrown
when a configured key file cannot be read or parsed. -/
def gcpInitialize (env : GcpInitEnv) (config : GCPVaultConfig) :
    Except String (Option String) :=
  -- Priorities 1-3: keyFilename parameter, GOOGLE_APPLICATION_CREDENTIALS,
  -- inline credentials (priority 4, ambient ADC, resolves nothing).
  let fromCreds : Except String (Option String) :=
    if jsTruthy config.keyFilename then
      if jsTruthy config.projectId then .ok none
      else
        match env.readKeyProjectId (config.keyFilename.getD "") with
        | .error e => .error ("Failed to read or parse key file " ++
            config.keyFilename.getD "" ++ ": " ++ e)
        | .ok pid => .ok (if jsTruthy pid then pid else none)
    else if jsTruthy env.googleApplicationCredentials then
      if jsTruthy config.projectId then .ok none
      else
        match env.readKeyProjectId (env.googleApplicationCredentials.getD "") with
        | .error e => .error ("Failed to read or parse key file " ++
            env.googleApplicationCredentials.getD "" ++ ": " ++ e)
        | .ok pid => .ok (if jsTruthy pid then pid else none)
    else
      match config.credentials with
      | some creds =>
        .ok (if jsTruthy (some creds.project_id) then some creds.project_id else none)
      | none => .ok none
  match fromCreds with
  | .error e => .error e
  | .ok r0 =>
    -- Explicit projectId parameter takes precedence.
    let r1 := if jsTruthy config.projectId then config.projectId else r0
    -- Last resort: gcloud config, errors ignored; "" and "(unset)" rejected.
    let r2 :=
      if jsTruthy r1 then r1
      else
        match env.gcloudProject with
        | .ok pid =>
          if jsTruthy (some pid) ∧ pid ≠ "(unset)" then some pid else none
        | .error _ => none
    .ok r2

/-! ## Theorems: secret reference splitter (C1) -/

theorem splitSecretRef_append_hash (id path : String) (h : '#' ∉ path.data) :
    splitSecretRef (id ++ "#" ++ path) = (id, some path) := by
  have hdata : (id ++ "#" ++ path).data = id.data ++ '#' :: path.data := by
    rw [String.data_append, String.data_append]
    simp
  have htake : (id.data ++ '#' :: path.data).take id.data.length = id.data :=
    List.take_left id.data ('#' :: path.data)
  have hdrop : (id.data ++ '#' :: path.data).drop (id.data.length + 1) = path.data := by
    have hsplit : id.data ++ '#' :: path.data = (id.data ++ ['#']) ++ path.data := by simp
    have hlen : id.data.length + 1 = (id.data ++ ['#']).length := by simp
    rw [hsplit, hlen, List.drop_left]
  simp only [splitSecretRef, hdata, jsLastIndexOf_append_cons id.data h, htake, hdrop]

theorem splitSecretRef_no_hash (tok : String) (h : '#' ∉ tok.data) :
    splitSecretRef tok = (tok, none) := by
  simp [splitSecretRef, jsLastIndexOf_eq_none h]

theorem splitSecretRef_trailing_hash (t : String) :
    splitSecretRef (t ++ "#") = (t, some "") := by
  have h := splitSecretRef_append_hash t "" (by simp)
  have happ : t ++ "#" ++ "" = t ++ "#" := by
    apply String.ext
    rw [String.data_append]
    simp
  rwa [happ] at h

/-- C1: for every caller-supplied secret reference token the splitter divides
the token at the LAST `#`: everything before it is the identifier and
everything after it the JSON path; a token with no `#` is all identifier with
an absent path; and a token whose last `#` is followed by the empty string
makes resolution fail with the empty-JSON-path format error without fetching
anything. -/
theorem splitter_splits_on_last_hash :
    (∀ id path : String, '#' ∉ path.data →
      splitSecretRef (id ++ "#" ++ path) = (id, some path)) ∧
    (∀ tok : String, '#' ∉ tok.data → splitSecretRef tok = (tok, none)) ∧
    (∀ (parse : String → Option Json) (fetch : String → Except String String)
      (key t : String),
      resolveEntry parse fetch key (t ++ "#") =
        (.error (.emptyJsonPath key (t ++ "#")), [])) := by
  refine ⟨splitSecretRef_append_hash, splitSecretRef_no_hash, ?_⟩
  intro parse fetch key t
  simp [resolveEntry, splitSecretRef_trailing_hash t]

/-- Witness for C1: `my#secret#a.b` splits into identifier `my#secret` and
path `a.b` even though the identifier contains an earlier `#`. -/
theorem splitter_splits_on_last_hash_witness :
    '#' ∉ "a.b".data ∧
      splitSecretRef ("my#secret" ++ "#" ++ "a.b") = ("my#secret", some "a.b") :=
  ⟨by decide, splitter_splits_on_last_hash.1 "my#secret" "a.b" (by decide)⟩

/-! ## Theorems: GCP identifier normalization (C2, C3, C4, C5) -/

instance exceptDecEq {ε α : Type} [DecidableEq ε] [DecidableEq α] :
    DecidableEq (Except ε α) := fun x y =>
  match x, y with
  | .ok a, .ok b =>
    if h : a = b then isTrue (by rw [h])
    else isFalse (fun he => h (Except.ok.inj he))
  | .error a, .error b =>
    if h : a = b then isTrue (by rw [h])
    else isFalse (fun he => h (Except.error.inj he))
  | .ok _, .error _ => isFalse (fun he => Except.noConfusion he)
  | .error _, .ok _ => isFalse (fun he => Except.noConfusion he)

theorem jsTruthy_some_of_ne {p : String} (hp : p ≠ "") : jsTruthy (some p) = true := by
  cases hd : p.data with
  | nil => exact absurd (String.ext (hd.trans rfl)) hp
  | cons x xs => simp [jsTruthy, hd]

theorem jsStartsWith_append {s p t : String} (h : jsStartsWith s p = true) :
    jsStartsWith (s ++ t) p = true := by
  rw [jsStartsWith, String.data_append, List.isPrefixOf_iff_prefix]
  rw [jsStartsWith, List.isPrefixOf_iff_prefix] at h
  exact h.trans (List.prefix_append s.data t.data)

theorem jsIncludes_append_of_includes {t sub : String} (s : String)
    (h : jsIncludes t sub = true) : jsIncludes (s ++ t) sub = true := by
  rw [jsIncludes, String.data_append, decide_eq_true_iff]
  rw [jsIncludes, decide_eq_true_iff] at h
  exact h.trans (List.suffix_append s.data t.data).isInfix

/-- C2: for every shorthand identifier with exactly two slash-separated
segments `A/B` and resolved project id `p`, normalization yields
`projects/A/secrets/B/versions/latest` when `A` equals `p` exactly, and
`projects/p/secrets/A/versions/B` otherwise; the tie-break is exactly the
string equality test `A = p`. -/
theorem gcp_two_segment_tiebreak (p a b sid : String)
    (hp : p ≠ "")
    (hns : jsStartsWith sid "projects/" = false)
    (hsplit : jsSplit '/' sid = [a, b]) :
    (gcpNormalize (some p) sid).1 =
      (if a = p then
        .ok ("projects/" ++ a ++ "/secrets/" ++ b ++ "/versions/latest")
      else
        .ok ("projects/" ++ p ++ "/secrets/" ++ a ++ "/versions/" ++ b)) := by
  simp only [gcpNormalize, hns, Bool.false_eq_true, if_false,
    jsTruthy_some_of_ne hp, if_true, gcpNormalizeShorthand, hsplit]

/-- Witness for C2: with resolved project `p1`, `p1/s1` normalizes to
`projects/p1/secrets/s1/versions/latest` and `s1/v2` to
`projects/p1/secrets/s1/versions/v2`. -/
theorem gcp_two_segment_tiebreak_witness :
    (gcpNormalize (some "p1") "p1/s1").1 =
        .ok "projects/p1/secrets/s1/versions/latest" ∧
      (gcpNormalize (some "p1") "s1/v2").1 =
        .ok "projects/p1/secrets/s1/versions/v2" := by
  constructor
  · have h := gcp_two_segment_tiebreak "p1" "p1" "s1" "p1/s1"
      (by decide) (by decide) (by decide)
    simpa using h
  · have h := gcp_two_segment_tiebreak "p1" "s1" "v2" "s1/v2"
      (by decide) (by decide) (by decide)
    simpa using h

/-- C3: on identifiers already carrying the canonical `projects/` prefix,
normalization is idempotent: with an explicit `/versions/` segment the
identifier is returned unchanged, and without one `/versions/latest` is
appended exactly once — normalizing the appended result again is a no-op
(whatever the session context of either call). -/
theorem gcp_normalize_canonical_idempotent (sid : String) (st st2 : Option String)
    (hpref : jsStartsWith sid "projects/" = true) :
    (jsIncludes sid "/versions/" = true → (gcpNormalize st sid).1 = .ok sid) ∧
    (jsIncludes sid "/versions/" = false →
      (gcpNormalize st sid).1 = .ok (sid ++ "/versions/latest") ∧
      (gcpNormalize st2 (sid ++ "/versions/latest")).1 =
        .ok (sid ++ "/versions/latest")) := by
  constructor
  · intro hinc
    simp [gcpNormalize, hpref, hinc]
  · intro hinc
    constructor
    · simp [gcpNormalize, hpref, hinc]
    · have hpref2 : jsStartsWith (sid ++ "/versions/latest") "projects/" = true :=
        jsStartsWith_append hpref
      have hinc2 : jsIncludes (sid ++ "/versions/latest") "/versions/" = true :=
        jsIncludes_append_of_includes sid (by decide)
      simp [gcpNormalize, hpref2, hinc2]

/-- Witness for C3: `projects/p/secrets/s` gains `/versions/latest` once and
is then a fixed point; `projects/p/secrets/s/versions/v7` is untouched. -/
theorem gcp_normalize_canonical_idempotent_witness :
    (gcpNormalize none "projects/p/secrets/s/versions/v7").1 =
        .ok "projects/p/secrets/s/versions/v7" ∧
      (gcpNormalize none "projects/p/secrets/s").1 =
        .ok "projects/p/secrets/s/versions/latest" ∧
      (gcpNormalize none "projects/p/secrets/s/versions/latest").1 =
        .ok "projects/p/secrets/s/versions/latest" := by
  refine ⟨?_, ?_, ?_⟩
  · exact (gcp_normalize_canonical_idempotent "projects/p/secrets/s/versions/v7"
      none none (by decide)).1 (by decide)
  · exact ((gcp_normalize_canonical_idempotent "projects/p/secrets/s"
      none none (by decide)).2 (by decide)).1
  · have h := ((gcp_normalize_canonical_idempotent "projects/p/secrets/s"
      none none (by decide)).2 (by decide)).2
    simpa using h

/-- Counterexample to C4: when initialization resolves no project id
(context `none`), a later `getSecret` call with a fully-qualified identifier
mutates the session context to the project segment of that identifier, and a
subsequent shorthand call observes and uses this mid-session value — whereas
with the context fixed at initialization the shorthand call would fail. -/
theorem gcp_context_mutated_mid_session :
    (gcpNormalize none "projects/pA/secrets/sA").2 = some "pA" ∧
      (gcpNormalize ((gcpNormalize none "projects/pA/secrets/sA").2) "s1").1 =
        .ok "projects/pA/secrets/s1/versions/latest" ∧
      (gcpNormalize none "s1").1 = .error .shorthandNeedsProjectId := by
  refine ⟨by decide, by decide, by decide⟩

/-- C4 as amended: the resolved project id is written at most once per
session — once it holds a (non-empty) value, no later `getSecret` call
changes it, whatever identifier the call supplies; only when initialization
left it unresolved can the first fully-qualified call set it. -/
theorem gcp_context_write_once (p sid : String) (hp : p ≠ "") :
    (gcpNormalize (some p) sid).2 = some p := by
  have ht := jsTruthy_some_of_ne hp
  simp only [gcpNormalize, ht]
  repeat' split
  all_goals simp_all

/-- Witness for the amended C4: a resolved context `p1` survives a
fully-qualified call naming a different project. -/
theorem gcp_context_write_once_witness :
    "p1" ≠ "" ∧ (gcpNormalize (some "p1") "projects/pB/secrets/s").2 = some "p1" :=
  ⟨by decide, gcp_context_write_once "p1" "projects/pB/secrets/s" (by decide)⟩

theorem jsTruthy_none : jsTruthy none = false := rfl

theorem gcpNormalize_full_format (st : Option String) (sid : String)
    (hpref : jsStartsWith sid "projects/" = true) :
    ∃ n st2, gcpNormalize st sid = (.ok n, st2) := by
  by_cases hinc : jsIncludes sid "/versions/" = true
  · refine ⟨sid, (gcpNormalize st sid).2, Prod.ext ?_ rfl⟩
    simp [gcpNormalize, hpref, hinc]
  · refine ⟨sid ++ "/versions/latest", (gcpNormalize st sid).2, Prod.ext ?_ rfl⟩
    simp [gcpNormalize, hpref, hinc]

theorem gcpGetSecret_of_normalize_ok
    (fetch : String → Except String String) (st st2 : Option String)
    (sid n v : String) (hnorm : gcpNormalize st sid = (.ok n, st2))
    (hfetch : fetch n = .ok v) :
    gcpGetSecret fetch st sid = (.ok v, st2, [n]) := by
  simp only [gcpGetSecret, hnorm, hfetch]

/-- C5: a shorthand identifier with no resolvable project id fails with the
configuration error (whose message names every available source) and
performs no vault fetch; a fully-qualified identifier still normalizes and
resolves successfully with no resolved project id; and a missing project id
is not an error at initialization time. -/
theorem gcp_shorthand_requires_project_id :
    (∀ (fetch : String → Except String String) (st : Option String) (sid : String),
      jsStartsWith sid "projects/" = false → jsTruthy st = false →
      gcpGetSecret fetch st sid =
        (.error (.format .shorthandNeedsProjectId), st, [])) ∧
    (∀ src ∈ ["--vault-projectId", "VAULT_PROJECTID", "keyFilename",
        "credentials", "gcloud config"],
      src.data <:+: (renderGcpError .shorthandNeedsProjectId).data) ∧
    (∀ sid : String, jsStartsWith sid "projects/" = true →
      ∃ n st2, gcpNormalize none sid = (.ok n, st2) ∧
        ∀ (fetch : String → Except String String) (v : String), fetch n = .ok v →
          gcpGetSecret fetch none sid = (.ok v, st2, [n])) ∧
    (∀ (env : GcpInitEnv) (config : GCPVaultConfig) (msg : String),
      jsTruthy config.projectId = false → jsTruthy config.keyFilename = false →
      jsTruthy env.googleApplicationCredentials = false →
      config.credentials = none → env.gcloudProject = .error msg →
      gcpInitialize env config = .ok none) := by
  refine ⟨?_, by set_option maxRecDepth 8000 in decide, ?_, ?_⟩
  · intro fetch st sid hns hst
    simp only [gcpGetSecret, gcpNormalize, hns, hst, Bool.false_eq_true, if_false]
  · intro sid hpref
    obtain ⟨n, st2, hnorm⟩ := gcpNormalize_full_format none sid hpref
    exact ⟨n, st2, hnorm, fun fetch v hfetch =>
      gcpGetSecret_of_normalize_ok fetch none st2 sid n v hnorm hfetch⟩
  · intro env config msg h1 h2 h3 h4 h5
    simp only [gcpInitialize, h1, h2, h3, h4, h5, jsTruthy_none,
      Bool.false_eq_true, if_false]

/-- Witness for C5: shorthand `s1` with an unresolved context fails without
fetching; an all-absent environment initializes successfully to no project
id. -/
theorem gcp_shorthand_requires_project_id_witness :
    gcpGetSecret (fun _ => .ok "v") none "s1" =
        (.error (.format .shorthandNeedsProjectId), none, []) ∧
      gcpInitialize ⟨none, fun _ => .error "no file", .error "gcloud failed"⟩ {} =
        .ok none := by
  constructor
  · exact gcp_shorthand_requires_project_id.1 (fun _ => .ok "v") none "s1"
      (by decide) (by decide)
  · exact gcp_shorthand_requires_project_id.2.2.2
      ⟨none, fun _ => .error "no file", .error "gcloud failed"⟩ {} "gcloud failed"
      (by decide) (by decide) (by decide) rfl rfl

/-! ## Theorems: JSON path extraction (C6, C7, C8) -/

/-- C6: on the document `\x7b"db":\x7b"host":"postgres","port":5432\x7d\x7d`,
extraction at `db.host` gives `postgres`, at `db.port` gives `5432`, and at
`db.missing` fails with a key-not-found diagnostic naming the missing key
and listing the keys available at that point (`host, port`), or `(none)`
when the object there is empty. -/
theorem json_extraction_roundtrip :
    (∀ (parse : String → Option Json) (s : String),
      parse s = some (.obj [("db", .obj [("host", .str "postgres"),
          ("port", .num 5432)])]) →
      extractJsonPath parse s "db.host" = .ok "postgres" ∧
      extractJsonPath parse s "db.port" = .ok "5432" ∧
      extractJsonPath parse s "db.missing" =
        .error (.keyNotFound "db.missing" "missing" (some "db") "host, port")) ∧
    (∀ (parse : String → Option Json) (s : String),
      parse s = some (.obj [("db", .obj [])]) →
      extractJsonPath parse s "db.missing" =
        .error (.keyNotFound "db.missing" "missing" (some "db") "(none)")) := by
  constructor
  · intro parse s hp
    refine ⟨?_, ?_, ?_⟩ <;> · simp only [extractJsonPath, hp]; rfl
  · intro parse s hp
    simp only [extractJsonPath, hp]; rfl

/-- Witness for C6: a concrete parse function mapping `doc` to the document
above. -/
theorem json_extraction_roundtrip_witness :
    extractJsonPath
        (fun t => if t = "doc" then
          some (.obj [("db", .obj [("host", .str "postgres"), ("port", .num 5432)])])
          else none)
        "doc" "db.host" = .ok "postgres" ∧
      extractJsonPath
        (fun t => if t = "doc" then some (.obj [("db", .obj [])]) else none)
        "doc" "db.missing" =
        .error (.keyNotFound "db.missing" "missing" (some "db") "(none)") :=
  ⟨(json_extraction_roundtrip.1 _ "doc" (by simp)).1,
    json_extraction_roundtrip.2 _ "doc" (by simp)⟩

/-- C7: the terminal conversion returns a string as itself, a number or a
boolean as its string representation, and always errors on null, arrays and
objects — so a successful extraction can only come from a non-null primitive
terminal value. -/
theorem extracted_value_scalar_only :
    (∀ (p s : String), convertTerminal p (.str s) = .ok s) ∧
    (∀ (p : String) (n : Int), convertTerminal p (.num n) = .ok (toString n)) ∧
    (∀ (p : String) (b : Bool),
      convertTerminal p (.bool b) = .ok (if b then "true" else "false")) ∧
    (∀ p : String, convertTerminal p .null = .error (.nullValue p)) ∧
    (∀ (p : String) (elems : List Json),
      convertTerminal p (.arr elems) = .error (.arrayValue p)) ∧
    (∀ (p : String) (fields : List (String × Json)),
      convertTerminal p (.obj fields) = .error (.objectValue p)) ∧
    (∀ (parse : String → Option Json) (s p v : String),
      extractJsonPath parse s p = .ok v →
      ∃ (fields : List (String × Json)) (j : Json),
        parse s = some (.obj fields) ∧
        traverseJsonPath p (jsSplit '.' p) [] (.obj fields) = .ok j ∧
        convertTerminal p j = .ok v) := by
  refine ⟨fun _ _ => rfl, fun _ _ => rfl, fun _ _ => rfl, fun _ => rfl,
    fun _ _ => rfl, fun _ _ => rfl, ?_⟩
  intro parse s p v h
  unfold extractJsonPath at h
  cases hval : validateJsonPath p with
  | error e => rw [hval] at h; simp at h
  | ok u =>
    rw [hval] at h
    dsimp only at h
    cases hp : parse s with
    | none => rw [hp] at h; simp at h
    | some parsed =>
      rw [hp] at h
      dsimp only at h
      cases parsed with
      | obj fields =>
        dsimp only at h
        cases htr : traverseJsonPath p (jsSplit '.' p) [] (.obj fields) with
        | error e => rw [htr] at h; simp at h
        | ok j =>
          rw [htr] at h
          dsimp only at h
          exact ⟨fields, j, rfl, htr, h⟩
      | null => simp at h
      | bool b => simp at h
      | num n => simp at h
      | str s2 => simp at h
      | arr elems => simp at h

/-- Witness for C7: a successful concrete extraction inverts to a primitive
terminal value. -/
theorem extracted_value_scalar_only_witness :
    ∃ (fields : List (String × Json)) (j : Json),
      (fun t => if t = "d" then some (Json.obj [("a", Json.str "x")]) else none) "d" =
          some (.obj fields) ∧
        traverseJsonPath "a" (jsSplit '.' "a") [] (.obj fields) = .ok j ∧
        convertTerminal "a" j = .ok "x" :=
  extracted_value_scalar_only.2.2.2.2.2.2
    (fun t => if t = "d" then some (Json.obj [("a", Json.str "x")]) else none)
    "d" "a" "x" (by rfl)

/-- C8: on a raw secret that is not valid JSON, extraction with a valid path
fails with the typed not-valid-JSON diagnostic, whose rendered message ends
with the hint to remove the `#path` suffix when extraction was not
intended — a bare parser exception is never surfaced. -/
theorem not_json_typed_diagnostic (parse : String → Option Json) (s p : String)
    (hval : validateJsonPath p = .ok ()) (hparse : parse s = none) :
    extractJsonPath parse s p = .error (.notJson p) ∧
    ∃ pre : String, renderExtractError (.notJson p) =
      pre ++ ("remove the #" ++ p ++ " suffix from the secret ID.") := by
  constructor
  · simp only [extractJsonPath, hval, hparse]
  · refine ⟨"Cannot extract JSON path " ++ p ++
      " from secret: secret value is not valid JSON. " ++
      "If you did not intend to extract a JSON path, ", ?_⟩
    have hlit : ("If you did not intend to extract a JSON path, " : String) ++
        "remove the #" = "If you did not intend to extract a JSON path, remove the #" := by
      decide
    simp only [renderExtractError, ← hlit, String.append_assoc]

/-- Witness for C8: a parse function rejecting everything yields the typed
diagnostic on path `a.b`. -/
theorem not_json_typed_diagnostic_witness :
    extractJsonPath (fun _ => none) "oops" "a.b" = .error (.notJson "a.b") :=
  (not_json_typed_diagnostic (fun _ => none) "oops" "a.b" (by decide) rfl).1

/-! ## Theorems: resolution pipeline (C9) -/

/-- C9: the pipeline processes the requested entries sequentially in
insertion order and is fail-fast and atomic: when every entry of `pre`
resolves and the next entry fails with `e`, the pipeline returns that first
error (no partial mapping), and the fetch trace consists of the fetches of
`pre` and of the failing entry only — nothing from `post` is ever
fetched. -/
theorem pipeline_fail_fast (parse : String → Option Json)
    (fetch : String → Except String String)
    (pre : List (String × String)) (key tok : String)
    (post : List (String × String)) (e : PipelineError)
    (hpre : ∀ kt ∈ pre, ∃ v, (resolveEntry parse fetch kt.1 kt.2).1 = .ok v)
    (herr : (resolveEntry parse fetch key tok).1 = .error e) :
    getSecretsT parse fetch (pre ++ (key, tok) :: post) =
      (.error e,
        (pre.map fun kt => (resolveEntry parse fetch kt.1 kt.2).2).flatten ++
          (resolveEntry parse fetch key tok).2) := by
  induction pre with
  | nil =>
    cases hres : resolveEntry parse fetch key tok with
    | mk r tr =>
      rw [hres] at herr
      have herr2 : r = Except.error e := herr
      subst herr2
      simp only [List.nil_append, List.map_nil, List.flatten_nil, getSecretsT, hres]
  | cons kt rest ih =>
    obtain ⟨k1, t1⟩ := kt
    obtain ⟨v, hv⟩ := hpre (k1, t1) (List.mem_cons_self _ _)
    cases hres : resolveEntry parse fetch k1 t1 with
    | mk r tr =>
      rw [hres] at hv
      have hv2 : r = Except.ok v := hv
      subst hv2
      have ihh := ih fun kt2 hkt => hpre kt2 (List.mem_cons_of_mem _ hkt)
      simp only [List.cons_append, getSecretsT, hres, List.append_eq, ihh,
        List.map_cons, List.flatten_cons, List.append_assoc]

/-- Witness for C9: with a test-double vault failing on id `bad`, the entry
after the failing one is never fetched and the first error is returned. -/
theorem pipeline_fail_fast_witness :
    getSecretsT (fun _ => none)
        (fun sid => if sid = "bad" then .error "boom" else .ok "v")
        [("A", "good"), ("B", "bad"), ("C", "never")] =
      (.error (.vaultError "boom"), ["good", "bad"]) := by
  have h := pipeline_fail_fast (fun _ => none)
      (fun sid => if sid = "bad" then .error "boom" else .ok "v")
      [("A", "good")] "B" "bad" [("C", "never")] (.vaultError "boom")
      (by
        intro kt hkt
        rw [List.mem_singleton] at hkt
        subst hkt
        exact ⟨"v", rfl⟩)
      rfl
  exact h.trans (by rfl)

/-! ## Theorems: CLI argument parsing (C10) -/

theorem jsSplitAux_append_sep (c : Char) {xs : List Char} (ys : List Char)
    (h : c ∉ xs) :
    jsSplitAux c (xs ++ c :: ys) =
      (xs, (jsSplitAux c ys).1 :: (jsSplitAux c ys).2) := by
  induction xs with
  | nil => simp [jsSplitAux]
  | cons x rest ih =>
    simp only [List.mem_cons, not_or] at h
    have hx : ¬ x = c := fun hxc => h.1 hxc.symm
    simp [jsSplitAux, ih h.2, hx]

theorem jsSplitChars_append_sep (c : Char) {xs : List Char} (ys : List Char)
    (h : c ∉ xs) :
    jsSplitChars c (xs ++ c :: ys) = xs :: jsSplitChars c ys := by
  simp [jsSplitChars, jsSplitAux_append_sep c ys h]

/-- C10: a pre-`--` token `KEY=VALUE` whose VALUE itself contains `=` keeps
only the text between the first and the second `=` as the stored secret
reference — `arg.split("=", 2)` silently discards the remainder, so a secret
identifier containing `=` never reaches the vault intact. -/
theorem parseCliArgs_value_truncated (k v w : String) (cmd : List String)
    (hk : '=' ∉ k.data) (hv : '=' ∉ v.data) :
    parseCliArgs ((k ++ "=" ++ v ++ "=" ++ w) :: "--" :: cmd) =
      .ok ([(k, v)], cmd) := by
  have heqd : ("=" : String).data = ['='] := rfl
  have hdata : (k ++ "=" ++ v ++ "=" ++ w).data =
      k.data ++ '=' :: (v.data ++ '=' :: w.data) := by
    rw [String.data_append, String.data_append, String.data_append,
      String.data_append, heqd]
    simp
  have hsplit : jsSplit '=' (k ++ "=" ++ v ++ "=" ++ w) =
      k :: v :: (jsSplitChars '=' w.data).map String.mk := by
    rw [jsSplit, hdata, jsSplitChars_append_sep '=' _ hk,
      jsSplitChars_append_sep '=' _ hv]
    rfl
  have hne : (k ++ "=" ++ v ++ "=" ++ w) ≠ "--" := by
    intro hcontra
    have hmem : '=' ∈ (k ++ "=" ++ v ++ "=" ++ w).data := by
      rw [hdata]; simp
    rw [hcontra] at hmem
    exact absurd hmem (by decide)
  have hidx : jsIndexOf "--" ((k ++ "=" ++ v ++ "=" ++ w) :: "--" :: cmd) =
      some 1 := by
    simp [jsIndexOf, hne]
  simp [parseCliArgs, hidx, parseEnvVarArgs, hsplit, recordSet]

/-- Witness for C10: the token `K=a=b=c` maps `K` to `a`, discarding
`b=c`. -/
theorem parseCliArgs_value_truncated_witness :
    parseCliArgs ["K" ++ "=" ++ "a" ++ "=" ++ "b=c", "--", "cmd"] =
      .ok ([("K", "a")], ["cmd"]) :=
  parseCliArgs_value_truncated "K" "a" "b=c" ["cmd"] (by decide) (by decide)
